import Mathlib

/-!
Verification development for the sps_plot reaction-kinematics engine
(`src/app.rs`).  The Rust code is embedded shallowly:

* `f64` values are modelled by `F64`, real numbers extended with the IEEE
  special values `inf`, `neginf` and `nan` (rounding and signed zero are
  idealised away; every operation the engine performs is modelled with the
  IEEE special-value rules, in particular `sqrt` of a negative number is
  `nan`, finite / 0 is a signed infinity or `nan`, and every comparison
  with `nan` is false).
* `Reaction` mirrors the Rust struct field by field (the GUI-only `color`
  field is dropped).
* The external mass table `NuclearData::get_data` (module
  `nuclear_data_amdc_2016`, not part of the sources) is passed in as an
  abstract lookup function.
* Rust's `i32 as u32` cast is modelled by `i32_as_u32` (wrap modulo 2^32).
* A panicking `unwrap()` is modelled by an `Option` result: `none` means
  the computation panicked.
-/

/-- Model of an IEEE double: a finite real, `inf`, `neginf`, or `nan`. -/
inductive F64 where
  | fin (x : ℝ)
  | inf
  | neginf
  | nan

namespace F64

/-- IEEE addition on the model (`inf + neginf = nan`, `nan` propagates). -/
noncomputable def add : F64 → F64 → F64
  | nan, _ => nan
  | _, nan => nan
  | inf, neginf => nan
  | neginf, inf => nan
  | inf, _ => inf
  | _, inf => inf
  | neginf, _ => neginf
  | _, neginf => neginf
  | fin x, fin y => fin (x + y)

/-- IEEE subtraction on the model. -/
noncomputable def sub : F64 → F64 → F64
  | nan, _ => nan
  | _, nan => nan
  | inf, inf => nan
  | neginf, neginf => nan
  | inf, _ => inf
  | _, inf => neginf
  | neginf, _ => neginf
  | _, neginf => inf
  | fin x, fin y => fin (x - y)

open Classical in
/-- IEEE multiplication on the model (`inf * 0 = nan`, `nan` propagates). -/
noncomputable def mul : F64 → F64 → F64
  | nan, _ => nan
  | _, nan => nan
  | fin x, fin y => fin (x * y)
  | inf, fin y => if y = 0 then nan else if 0 < y then inf else neginf
  | fin x, inf => if x = 0 then nan else if 0 < x then inf else neginf
  | neginf, fin y => if y = 0 then nan else if 0 < y then neginf else inf
  | fin x, neginf => if x = 0 then nan else if 0 < x then neginf else inf
  | inf, inf => inf
  | inf, neginf => neginf
  | neginf, inf => neginf
  | neginf, neginf => inf

open Classical in
/-- IEEE division on the model: a nonzero finite value divided by zero is a
signed infinity, `0/0 = nan`, `inf/inf = nan`, finite/infinite is `0`
(signed zero is identified with `0`). -/
noncomputable def div : F64 → F64 → F64
  | nan, _ => nan
  | _, nan => nan
  | fin x, fin y =>
      if y = 0 then (if x = 0 then nan else if 0 < x then inf else neginf)
      else fin (x / y)
  | inf, fin y => if 0 ≤ y then inf else neginf
  | neginf, fin y => if 0 ≤ y then neginf else inf
  | fin _, inf => fin 0
  | fin _, neginf => fin 0
  | inf, inf => nan
  | inf, neginf => nan
  | neginf, inf => nan
  | neginf, neginf => nan

open Classical in
/-- IEEE square root on the model: `nan` on negative finite inputs and on
`neginf` (Rust `f64::sqrt`). -/
noncomputable def sqrt : F64 → F64
  | nan => nan
  | fin x => if x < 0 then nan else fin (Real.sqrt x)
  | inf => inf
  | neginf => nan

/-- The IEEE comparison `a > 0.0`: false for `nan` (Rust `ke1 > 0.0`). -/
def gtZero : F64 → Prop
  | fin x => 0 < x
  | inf => True
  | neginf => False
  | nan => False

theorem add_fin (x y : ℝ) : add (fin x) (fin y) = fin (x + y) := rfl

theorem sub_fin (x y : ℝ) : sub (fin x) (fin y) = fin (x - y) := rfl

theorem mul_fin (x y : ℝ) : mul (fin x) (fin y) = fin (x * y) := rfl

theorem div_fin_of_ne {y : ℝ} (x : ℝ) (h : y ≠ 0) :
    div (fin x) (fin y) = fin (x / y) := by
  simp [div, h]

theorem div_fin_zero_pos {x : ℝ} (h : 0 < x) : div (fin x) (fin 0) = inf := by
  simp [div, h, ne_of_gt h]

theorem sqrt_fin_of_nonneg {x : ℝ} (h : 0 ≤ x) :
    sqrt (fin x) = fin (Real.sqrt x) := by
  simp [sqrt, not_lt.mpr h]

theorem sqrt_fin_of_neg {x : ℝ} (h : x < 0) : sqrt (fin x) = nan := by
  simp [sqrt, h]

theorem add_nan (a : F64) : add a nan = nan := by cases a <;> rfl

theorem nan_add (a : F64) : add nan a = nan := by cases a <;> rfl

theorem mul_nan (a : F64) : mul a nan = nan := by cases a <;> rfl

theorem nan_mul (a : F64) : mul nan a = nan := by cases a <;> rfl

theorem div_nan (a : F64) : div a nan = nan := by cases a <;> rfl

theorem nan_div (a : F64) : div nan a = nan := by cases a <;> rfl

theorem sqrt_nan : sqrt nan = nan := rfl

theorem gtZero_fin (x : ℝ) : gtZero (fin x) ↔ 0 < x := Iff.rfl

theorem not_gtZero_nan : ¬ gtZero nan := fun h => h

end F64

/-- Speed of light in m/s (constant `C` in `app.rs`). -/
def C : ℝ := 299792458.0

/-- Conversion constant `QBRHO2P = 1.0E-9 * C` from `app.rs`. -/
def QBRHO2P : ℝ := 1.0E-9 * C

/-- Modelled from the spec (§3 NuclideData): the resolved nuclide record
returned by the external mass table (`nuclear_data_amdc_2016::NuclearData`,
whose source file is not part of the repository snapshot).  Only the fields
the engine reads are kept: isotope label, charge `z` and rest mass. -/
structure NuclearData where
  isotope : String
  z : ℤ
  mass : ℝ

/-- Shallow embedding of the Rust `Reaction` struct (the GUI-only `color`
field is omitted).  `target_z`, …, `resid_a` are `i32` values, modelled as
integers; the data slots are `Option<NuclearData>`; `rho_values` holds
`(f64, f64)` pairs whose second component may be a special value. -/
structure Reaction where
  target_z : ℤ
  target_a : ℤ
  target_data : Option NuclearData
  projectile_z : ℤ
  projectile_a : ℤ
  projectile_data : Option NuclearData
  ejectile_z : ℤ
  ejectile_a : ℤ
  ejectile_data : Option NuclearData
  resid_z : ℤ
  resid_a : ℤ
  resid_data : Option NuclearData
  reaction_identifier : String
  excitation_levels : List ℝ
  add_excitation_level : ℝ
  additional_excitation_levels : List ℝ
  rho_values : List (ℝ × F64)

/-- The `Default` instance of the Rust struct: zero / empty everywhere. -/
def Reaction.default : Reaction where
  target_z := 0
  target_a := 0
  target_data := none
  projectile_z := 0
  projectile_a := 0
  projectile_data := none
  ejectile_z := 0
  ejectile_a := 0
  ejectile_data := none
  resid_z := 0
  resid_a := 0
  resid_data := none
  reaction_identifier := ""
  excitation_levels := []
  add_excitation_level := 0
  additional_excitation_levels := []
  rho_values := []

/-- Rust's `x as u32` cast of an `i32` value: wrap modulo 2^32
(a negative value becomes `2^32 + x`). -/
def i32_as_u32 (x : ℤ) : ℕ := (x % 2 ^ 32).toNat

/-- `Option::map_or("None", |data| &data.isotope)` from `app.rs`. -/
def isotope_or_none : Option NuclearData → String
  | some d => d.isotope
  | none => "None"

/-- `Reaction::populate_reaction_data` (`app.rs` lines 178-212).  The
external `NuclearData::get_data` is the abstract `lookup` argument, keyed
by the `u32` values produced by the `as u32` casts.  Sets the residual
(Z, A) by charge/mass balance, refreshes the four data slots and rebuilds
the identifier string. -/
def populate_reaction_data (lookup : ℕ → ℕ → Option NuclearData)
    (reaction : Reaction) : Reaction :=
  let rz := reaction.target_z + reaction.projectile_z - reaction.ejectile_z
  let ra := reaction.target_a + reaction.projectile_a - reaction.ejectile_a
  let td := lookup (i32_as_u32 reaction.target_z) (i32_as_u32 reaction.target_a)
  let pd := lookup (i32_as_u32 reaction.projectile_z) (i32_as_u32 reaction.projectile_a)
  let ed := lookup (i32_as_u32 reaction.ejectile_z) (i32_as_u32 reaction.ejectile_a)
  let rd := lookup (i32_as_u32 rz) (i32_as_u32 ra)
  { reaction with
    resid_z := rz
    resid_a := ra
    target_data := td
    projectile_data := pd
    ejectile_data := ed
    resid_data := rd
    reaction_identifier :=
      isotope_or_none td ++ "(" ++ isotope_or_none pd ++ ","
        ++ isotope_or_none ed ++ ")" ++ isotope_or_none rd }

/-- The local `term1` of `excitation_level_to_rho` (`app.rs` line 452):
`(projectile.mass * ejectile.mass * beam_energy).sqrt() / (ejectile.mass
+ resid.mass) * (sps_angle * PI / 180).cos()`, with IEEE semantics. -/
noncomputable def term1 (projectile ejectile resid : NuclearData)
    (beam_reaction_energy sps_angle : ℝ) : F64 :=
  F64.mul
    (F64.div
      (F64.sqrt (F64.fin (projectile.mass * ejectile.mass * beam_reaction_energy)))
      (F64.fin (ejectile.mass + resid.mass)))
    (F64.fin (Real.cos (sps_angle * Real.pi / 180)))

/-- The local `term2` of `excitation_level_to_rho` (`app.rs` line 455):
`(beam_energy * (resid.mass - projectile.mass) + resid.mass * reaction_q_value)
/ (ejectile.mass + resid.mass)`. -/
noncomputable def term2 (projectile ejectile resid : NuclearData)
    (beam_reaction_energy reaction_q_value : ℝ) : F64 :=
  F64.div
    (F64.fin (beam_reaction_energy * (resid.mass - projectile.mass)
      + resid.mass * reaction_q_value))
    (F64.fin (ejectile.mass + resid.mass))

/-- The discriminant expression `term1 * term1 + term2` that appears under
the square root in `app.rs` lines 459-460. -/
noncomputable def disc (projectile ejectile resid : NuclearData)
    (beam_reaction_energy sps_angle reaction_q_value : ℝ) : F64 :=
  F64.add
    (F64.mul (term1 projectile ejectile resid beam_reaction_energy sps_angle)
      (term1 projectile ejectile resid beam_reaction_energy sps_angle))
    (term2 projectile ejectile resid beam_reaction_energy reaction_q_value)

/-- The local `ke1` of `app.rs` line 459:
`term1 + (term1 * term1 + term2).sqrt()`. -/
noncomputable def ke1 (projectile ejectile resid : NuclearData)
    (beam_reaction_energy sps_angle reaction_q_value : ℝ) : F64 :=
  F64.add (term1 projectile ejectile resid beam_reaction_energy sps_angle)
    (F64.sqrt (disc projectile ejectile resid beam_reaction_energy sps_angle
      reaction_q_value))

/-- The local `ke2` of `app.rs` line 460.  The source computes it with the
SAME sign as `ke1`: `term1 + (term1 * term1 + term2).sqrt()` (there is no
subtraction in the code). -/
noncomputable def ke2 (projectile ejectile resid : NuclearData)
    (beam_reaction_energy sps_angle reaction_q_value : ℝ) : F64 :=
  F64.add (term1 projectile ejectile resid beam_reaction_energy sps_angle)
    (F64.sqrt (disc projectile ejectile resid beam_reaction_energy sps_angle
      reaction_q_value))

/-- Modelled from the spec (§4.2 step 5): the second root as the spec
states it, `k2 = term1 - sqrt(term1^2 + term2)`.  Kept separate, for
comparison with the source's `ke2` above. -/
noncomputable def spec_ke2 (projectile ejectile resid : NuclearData)
    (beam_reaction_energy sps_angle reaction_q_value : ℝ) : F64 :=
  F64.sub (term1 projectile ejectile resid beam_reaction_energy sps_angle)
    (F64.sqrt (disc projectile ejectile resid beam_reaction_energy sps_angle
      reaction_q_value))

open Classical in
/-- The local `ejectile_energy` of `app.rs` line 462:
`if ke1 > 0.0 { ke1 * ke1 } else { ke2 * ke2 }`. -/
noncomputable def ejectile_energy (projectile ejectile resid : NuclearData)
    (beam_reaction_energy sps_angle reaction_q_value : ℝ) : F64 :=
  if F64.gtZero (ke1 projectile ejectile resid beam_reaction_energy sps_angle
      reaction_q_value) then
    F64.mul (ke1 projectile ejectile resid beam_reaction_energy sps_angle
        reaction_q_value)
      (ke1 projectile ejectile resid beam_reaction_energy sps_angle
        reaction_q_value)
  else
    F64.mul (ke2 projectile ejectile resid beam_reaction_energy sps_angle
        reaction_q_value)
      (ke2 projectile ejectile resid beam_reaction_energy sps_angle
        reaction_q_value)

/-- One iteration of the `for excitation in levels` loop of
`excitation_level_to_rho` (`app.rs` lines 443-468): from the four resolved
nuclides, the global beam energy / field / angle and one excitation
energy, the stored rho value.  `reaction_q_value = q_value - excitation`
with `q_value` the ground-state Q-value (line 434);
`p = sqrt(E * (E + 2 * ejectile.mass))`; `qbrho = p / QBRHO2P`;
`rho = qbrho / (magnetic_field * ejectile.z as f64)`. -/
noncomputable def rho_for_level (target projectile ejectile resid : NuclearData)
    (beam_energy magnetic_field sps_angle excitation : ℝ) : F64 :=
  let q_value := target.mass + projectile.mass - ejectile.mass - resid.mass
  let reaction_q_value := q_value - excitation
  let e := ejectile_energy projectile ejectile resid beam_energy sps_angle
    reaction_q_value
  let p := F64.sqrt (F64.mul e (F64.add e (F64.fin (2 * ejectile.mass))))
  let qbrho := F64.div p (F64.fin QBRHO2P)
  F64.div qbrho (F64.fin (magnetic_field * (ejectile.z : ℝ)))

/-- `SPSPlotApp::excitation_level_to_rho` (`app.rs` lines 415-472).  The
function clears `rho_values`, `unwrap()`s the four data slots — modelled
by returning `none` (panic) when any slot is empty —, builds the working
level list `excitation_levels ++ additional_excitation_levels` (lines
436-439) and pushes one `(excitation, rho)` pair per level, in order
(lines 443-471; every level is pushed, there is no skip). -/
noncomputable def excitation_level_to_rho (reaction : Reaction)
    (beam_energy magnetic_field sps_angle : ℝ) : Option Reaction :=
  match reaction.target_data, reaction.projectile_data,
      reaction.ejectile_data, reaction.resid_data with
  | some target, some projectile, some ejectile, some resid =>
      let levels := reaction.excitation_levels
        ++ reaction.additional_excitation_levels
      some { reaction with
        rho_values := levels.map (fun excitation =>
          (excitation,
            rho_for_level target projectile ejectile resid beam_energy
              magnetic_field sps_angle excitation)) }
  | _, _, _, _ => none

/-- `SPSPlotApp::calculate_rho_for_all_reactions` (`app.rs` lines 474-483):
runs `excitation_level_to_rho` over the reactions in order.  A panic in
one reaction (`none`) aborts the whole batch. -/
noncomputable def calculate_rho_for_all_reactions
    (beam_energy magnetic_field sps_angle : ℝ) :
    List Reaction → Option (List Reaction)
  | [] => some []
  | r :: rest =>
      match excitation_level_to_rho r beam_energy magnetic_field sps_angle with
      | none => none
      | some r' =>
          match calculate_rho_for_all_reactions beam_energy magnetic_field
              sps_angle rest with
          | none => none
          | some rest' => some (r' :: rest')

/-- The ¹²C(d,p) example reaction of the spec: target (Z=6, A=12),
projectile (Z=1, A=2), ejectile (Z=1, A=1). -/
def reaction_c12_dp : Reaction :=
  { Reaction.default with
    target_z := 6, target_a := 12
    projectile_z := 1, projectile_a := 2
    ejectile_z := 1, ejectile_a := 1 }

/-- A reaction whose residual charge comes out negative:
target (0,0) + projectile (0,0) − ejectile (1,0) gives residual Z = −1. -/
def reaction_neg_resid : Reaction :=
  { Reaction.default with ejectile_z := 1 }

/-- C5: `populate_reaction_data` sets the residual's charge and mass
numbers by the balance equations `resid_z = target_z + projectile_z -
ejectile_z` and `resid_a = target_a + projectile_a - ejectile_a` for every
reaction and every mass table; in particular for target (6,12), projectile
(1,2), ejectile (1,1) the residual is (6,13). -/
theorem populate_residual_balance (lookup : ℕ → ℕ → Option NuclearData)
    (r : Reaction) :
    ((populate_reaction_data lookup r).resid_z
        = r.target_z + r.projectile_z - r.ejectile_z
      ∧ (populate_reaction_data lookup r).resid_a
        = r.target_a + r.projectile_a - r.ejectile_a)
    ∧ ((populate_reaction_data lookup reaction_c12_dp).resid_z = 6
      ∧ (populate_reaction_data lookup reaction_c12_dp).resid_a = 13) := by
  refine ⟨⟨rfl, rfl⟩, ?_, ?_⟩ <;>
    simp [populate_reaction_data, reaction_c12_dp, Reaction.default]

/-- C9: `populate_reaction_data` changes only the derived fields (the four
data slots, residual Z and A, the identifier); the fetched excitation
levels, the user-added extra levels, `rho_values`, the input (Z, A) pairs
and the pending custom-level field are unchanged. -/
theorem populate_frame_effect (lookup : ℕ → ℕ → Option NuclearData)
    (r : Reaction) :
    (populate_reaction_data lookup r).excitation_levels = r.excitation_levels
    ∧ (populate_reaction_data lookup r).additional_excitation_levels
        = r.additional_excitation_levels
    ∧ (populate_reaction_data lookup r).rho_values = r.rho_values
    ∧ (populate_reaction_data lookup r).add_excitation_level
        = r.add_excitation_level
    ∧ (populate_reaction_data lookup r).target_z = r.target_z
    ∧ (populate_reaction_data lookup r).target_a = r.target_a
    ∧ (populate_reaction_data lookup r).projectile_z = r.projectile_z
    ∧ (populate_reaction_data lookup r).projectile_a = r.projectile_a
    ∧ (populate_reaction_data lookup r).ejectile_z = r.ejectile_z
    ∧ (populate_reaction_data lookup r).ejectile_a = r.ejectile_a :=
  ⟨rfl, rfl, rfl, rfl, rfl, rfl, rfl, rfl, rfl, rfl⟩

/-- C10: a negative role value is not rejected at resolve time: the `as
u32` cast wraps it modulo 2^32 (−1 becomes 4294967295) and the mass-table
lookup is performed with the wrapped key; on a table that has no entry at
such huge charge numbers the slot simply resolves to `none`. -/
theorem negative_key_wrapping_lookup (lookup : ℕ → ℕ → Option NuclearData)
    (r : Reaction)
    (hz : r.target_z + r.projectile_z - r.ejectile_z = -1)
    (htab : ∀ z a, (4294967295 : ℕ) ≤ z → lookup z a = none) :
    i32_as_u32 (-1) = 4294967295
    ∧ (populate_reaction_data lookup r).resid_data
        = lookup (i32_as_u32 (r.target_z + r.projectile_z - r.ejectile_z))
            (i32_as_u32 (r.target_a + r.projectile_a - r.ejectile_a))
    ∧ (populate_reaction_data lookup r).resid_data = none := by
  have hwrap : i32_as_u32 (-1) = 4294967295 := by decide
  refine ⟨hwrap, rfl, ?_⟩
  show lookup (i32_as_u32 (r.target_z + r.projectile_z - r.ejectile_z))
    (i32_as_u32 (r.target_a + r.projectile_a - r.ejectile_a)) = none
  rw [hz, hwrap]
  exact htab _ _ le_rfl

/-- Witness for C10 at the concrete reaction (0,0) + (0,0) − (1,0) with an
empty mass table. -/
theorem negative_key_wrapping_lookup_witness :
    i32_as_u32 (-1) = 4294967295
    ∧ (populate_reaction_data (fun _ _ => none) reaction_neg_resid).resid_data
        = (fun _ _ => (none : Option NuclearData))
            (i32_as_u32 (reaction_neg_resid.target_z
              + reaction_neg_resid.projectile_z - reaction_neg_resid.ejectile_z))
            (i32_as_u32 (reaction_neg_resid.target_a
              + reaction_neg_resid.projectile_a - reaction_neg_resid.ejectile_a))
    ∧ (populate_reaction_data (fun _ _ => none)
        reaction_neg_resid).resid_data = none :=
  negative_key_wrapping_lookup (fun _ _ => none) reaction_neg_resid
    (by decide) (fun _ _ _ => rfl)

/-- The real value of `term1` when no special value arises. -/
noncomputable def term1R (projectile ejectile resid : NuclearData)
    (beam_reaction_energy sps_angle : ℝ) : ℝ :=
  Real.sqrt (projectile.mass * ejectile.mass * beam_reaction_energy)
    / (ejectile.mass + resid.mass) * Real.cos (sps_angle * Real.pi / 180)

/-- The real value of `term2` when no special value arises. -/
noncomputable def term2R (projectile ejectile resid : NuclearData)
    (beam_reaction_energy reaction_q_value : ℝ) : ℝ :=
  (beam_reaction_energy * (resid.mass - projectile.mass)
    + resid.mass * reaction_q_value) / (ejectile.mass + resid.mass)

/-- The real value of the discriminant `term1 * term1 + term2`. -/
noncomputable def discR (projectile ejectile resid : NuclearData)
    (beam_reaction_energy sps_angle reaction_q_value : ℝ) : ℝ :=
  term1R projectile ejectile resid beam_reaction_energy sps_angle
      * term1R projectile ejectile resid beam_reaction_energy sps_angle
    + term2R projectile ejectile resid beam_reaction_energy reaction_q_value

/-- The real value of the selected root `ke1 = term1 + sqrt(disc)`. -/
noncomputable def keR (projectile ejectile resid : NuclearData)
    (beam_reaction_energy sps_angle reaction_q_value : ℝ) : ℝ :=
  term1R projectile ejectile resid beam_reaction_energy sps_angle
    + Real.sqrt (discR projectile ejectile resid beam_reaction_energy
        sps_angle reaction_q_value)

/-- The real rho value produced for one level on the non-special path. -/
noncomputable def rhoR (target projectile ejectile resid : NuclearData)
    (beam_energy magnetic_field sps_angle excitation : ℝ) : ℝ :=
  let q := target.mass + projectile.mass - ejectile.mass - resid.mass - excitation
  let k := keR projectile ejectile resid beam_energy sps_angle q
  Real.sqrt (k * k * (k * k + 2 * ejectile.mass)) / QBRHO2P
    / (magnetic_field * (ejectile.z : ℝ))

theorem QBRHO2P_pos : 0 < QBRHO2P := by norm_num [QBRHO2P, C]

theorem term1_fin (p e r : NuclearData) (Eb θ : ℝ)
    (h1 : 0 ≤ p.mass * e.mass * Eb) (h2 : e.mass + r.mass ≠ 0) :
    term1 p e r Eb θ = F64.fin (term1R p e r Eb θ) := by
  rw [term1, F64.sqrt_fin_of_nonneg h1, F64.div_fin_of_ne _ h2, F64.mul_fin,
    term1R]

theorem term2_fin (p e r : NuclearData) (Eb q : ℝ)
    (h2 : e.mass + r.mass ≠ 0) :
    term2 p e r Eb q = F64.fin (term2R p e r Eb q) := by
  rw [term2, F64.div_fin_of_ne _ h2, term2R]

theorem disc_fin (p e r : NuclearData) (Eb θ q : ℝ)
    (h1 : 0 ≤ p.mass * e.mass * Eb) (h2 : e.mass + r.mass ≠ 0) :
    disc p e r Eb θ q = F64.fin (discR p e r Eb θ q) := by
  rw [disc, term1_fin p e r Eb θ h1 h2, term2_fin p e r Eb q h2, F64.mul_fin,
    F64.add_fin, discR]

theorem ke1_fin (p e r : NuclearData) (Eb θ q : ℝ)
    (h1 : 0 ≤ p.mass * e.mass * Eb) (h2 : e.mass + r.mass ≠ 0)
    (hd : 0 ≤ discR p e r Eb θ q) :
    ke1 p e r Eb θ q = F64.fin (keR p e r Eb θ q) := by
  rw [ke1, disc_fin p e r Eb θ q h1 h2, F64.sqrt_fin_of_nonneg hd,
    term1_fin p e r Eb θ h1 h2, F64.add_fin, keR]

theorem ke2_eq_ke1 (p e r : NuclearData) (Eb θ q : ℝ) :
    ke2 p e r Eb θ q = ke1 p e r Eb θ q := rfl

theorem ejectile_energy_eq_ke1_sq (p e r : NuclearData) (Eb θ q : ℝ) :
    ejectile_energy p e r Eb θ q
      = F64.mul (ke1 p e r Eb θ q) (ke1 p e r Eb θ q) := by
  rw [ejectile_energy]
  split <;> rfl

theorem rho_for_level_fin (t p e r : NuclearData) (Eb B θ Ex : ℝ)
    (h1 : 0 ≤ p.mass * e.mass * Eb) (h2 : e.mass + r.mass ≠ 0)
    (hd : 0 ≤ discR p e r Eb θ (t.mass + p.mass - e.mass - r.mass - Ex))
    (hme : 0 ≤ e.mass) (hB : B * (e.z : ℝ) ≠ 0) :
    rho_for_level t p e r Eb B θ Ex
      = F64.fin (rhoR t p e r Eb B θ Ex) := by
  have hk := ke1_fin p e r Eb θ (t.mass + p.mass - e.mass - r.mass - Ex) h1 h2 hd
  rw [rho_for_level]
  show F64.div (F64.div (F64.sqrt _) _) _ = _
  have hkk := mul_self_nonneg (keR p e r Eb θ (t.mass + p.mass - e.mass - r.mass - Ex))
  rw [ejectile_energy_eq_ke1_sq, hk, F64.mul_fin, F64.add_fin, F64.mul_fin,
    F64.sqrt_fin_of_nonneg (mul_nonneg hkk (by linarith)),
    F64.div_fin_of_ne _ (ne_of_gt QBRHO2P_pos),
    F64.div_fin_of_ne _ hB, rhoR]

theorem sqrt_four : Real.sqrt 4 = 2 := by
  rw [show (4 : ℝ) = 2 ^ 2 by norm_num]
  exact Real.sqrt_sq (by norm_num)

/-- A concrete nuclide for the evaluations below: charge 1, mass 2 MeV. -/
def nd2 : NuclearData := ⟨"X", 1, 2⟩

theorem disc_nan_of_zero_masses (p e r : NuclearData) (Eb θ q : ℝ)
    (he0 : e.mass = 0) (hr0 : r.mass = 0) :
    disc p e r Eb θ q = F64.nan := by
  have h1 : term1 p e r Eb θ = F64.nan := by
    rw [term1, he0, hr0]
    simp only [mul_zero, zero_mul, add_zero]
    rw [F64.sqrt_fin_of_nonneg le_rfl, Real.sqrt_zero]
    simp [F64.div, F64.nan_mul]
  rw [disc, h1, F64.nan_mul, F64.nan_add]

/-- C8: for present, non-negative masses, beam energy `Eb ≥ 0`, field
`B > 0`, ejectile charge `Ze ≥ 1` and a non-negative (finite) discriminant
`term1² + term2`, the solver produces a finite, non-negative rigidity for
the level. -/
theorem solver_returns_finite_nonneg (t p e r : NuclearData) (Eb B θ Ex : ℝ)
    (ht : 0 ≤ t.mass) (hp : 0 ≤ p.mass) (hme : 0 ≤ e.mass) (hmr : 0 ≤ r.mass)
    (hEb : 0 ≤ Eb) (hB : 0 < B) (hZe : 1 ≤ e.z)
    (hd : ∃ d, disc p e r Eb θ (t.mass + p.mass - e.mass - r.mass - Ex)
        = F64.fin d ∧ 0 ≤ d) :
    ∃ ρ, rho_for_level t p e r Eb B θ Ex = F64.fin ρ ∧ 0 ≤ ρ := by
  obtain ⟨d, hdisc, hd0⟩ := hd
  have h1 : 0 ≤ p.mass * e.mass * Eb :=
    mul_nonneg (mul_nonneg hp hme) hEb
  have h2 : e.mass + r.mass ≠ 0 := by
    intro h0
    have he0 : e.mass = 0 := by linarith
    have hr0 : r.mass = 0 := by linarith
    rw [disc_nan_of_zero_masses p e r Eb θ _ he0 hr0] at hdisc
    exact F64.noConfusion hdisc
  have hdR : discR p e r Eb θ (t.mass + p.mass - e.mass - r.mass - Ex) = d := by
    have heq := disc_fin p e r Eb θ (t.mass + p.mass - e.mass - r.mass - Ex) h1 h2
    rw [heq] at hdisc
    exact F64.fin.inj hdisc
  have hZr : (0 : ℝ) < (e.z : ℝ) := by
    exact_mod_cast lt_of_lt_of_le Int.zero_lt_one hZe
  have hBZ : B * (e.z : ℝ) ≠ 0 := ne_of_gt (mul_pos hB hZr)
  refine ⟨rhoR t p e r Eb B θ Ex,
    rho_for_level_fin t p e r Eb B θ Ex h1 h2 (by rw [hdR]; exact hd0) hme hBZ, ?_⟩
  exact div_nonneg (div_nonneg (Real.sqrt_nonneg _) QBRHO2P_pos.le)
    (mul_nonneg hB.le hZr.le)

/-- Witness for C8 at the concrete reaction with all four masses 2 MeV,
`Eb = 1`, `B = 1`, `θ = 0`, `Ex = 0` (discriminant 1/4). -/
theorem solver_returns_finite_nonneg_witness :
    ∃ ρ, rho_for_level nd2 nd2 nd2 nd2 1 1 0 0 = F64.fin ρ ∧ 0 ≤ ρ :=
  solver_returns_finite_nonneg nd2 nd2 nd2 nd2 1 1 0 0
    (by norm_num [nd2]) (by norm_num [nd2]) (by norm_num [nd2])
    (by norm_num [nd2]) (by norm_num) (by norm_num) (by norm_num [nd2])
    ⟨1 / 4, by
      rw [disc_fin nd2 nd2 nd2 1 0 _ (by norm_num [nd2]) (by norm_num [nd2])]
      congr 1
      rw [discR, term1R, term2R]
      norm_num [nd2, Real.cos_zero, sqrt_four], by norm_num⟩

theorem sqrt_quarter : Real.sqrt (1 / 4) = 1 / 2 := by
  rw [show (1 / 4 : ℝ) = (1 / 2) ^ 2 by norm_num]
  exact Real.sqrt_sq (by norm_num)

theorem cos_pi_deg : Real.cos ((180 : ℝ) * Real.pi / 180) = -1 := by
  rw [show (180 : ℝ) * Real.pi / 180 = Real.pi by ring]
  exact Real.cos_pi

theorem term1_backward_eval : term1 nd2 nd2 nd2 1 180 = F64.fin (-(1 / 2)) := by
  rw [term1_fin nd2 nd2 nd2 1 180 (by norm_num [nd2]) (by norm_num [nd2])]
  congr 1
  rw [term1R]
  norm_num [nd2, cos_pi_deg, sqrt_four]

theorem term2_zero_eval : term2 nd2 nd2 nd2 1 0 = F64.fin 0 := by
  rw [term2_fin nd2 nd2 nd2 1 0 (by norm_num [nd2])]
  congr 1
  rw [term2R]
  norm_num [nd2]

theorem disc_backward_eval : disc nd2 nd2 nd2 1 180 0 = F64.fin (1 / 4) := by
  rw [disc, term1_backward_eval, term2_zero_eval, F64.mul_fin, F64.add_fin]
  norm_num

theorem ke1_backward_eval : ke1 nd2 nd2 nd2 1 180 0 = F64.fin 0 := by
  rw [ke1, disc_backward_eval, F64.sqrt_fin_of_nonneg (by norm_num),
    term1_backward_eval, F64.add_fin]
  rw [sqrt_quarter]
  norm_num

/-- C1: the root selection of the quadratic.  At masses 2/2/2/2 MeV,
`Eb = 1`, `θ = 180°`, `Ex = 0` the selected root `ke1 = term1 +
sqrt(term1² + term2)` is 0, so the `else` branch is taken; the source's
`ke2` (line 460) is `term1 + sqrt(...)` again — identical to `ke1` — so
the stored ejectile energy is 0, whereas the spec's root `k2 = term1 −
sqrt(term1² + term2)` squares to 1.  The code never squares the
subtracted root the claim describes. -/
theorem ke2_same_sign_bug :
    ejectile_energy nd2 nd2 nd2 1 180 0 = F64.fin 0
    ∧ ke2 nd2 nd2 nd2 1 180 0 = ke1 nd2 nd2 nd2 1 180 0
    ∧ F64.mul (spec_ke2 nd2 nd2 nd2 1 180 0) (spec_ke2 nd2 nd2 nd2 1 180 0)
        = F64.fin 1 := by
  have hnot : ¬ F64.gtZero (ke1 nd2 nd2 nd2 1 180 0) := by
    rw [ke1_backward_eval]
    show ¬ (0 : ℝ) < 0
    norm_num
  have hspec : spec_ke2 nd2 nd2 nd2 1 180 0 = F64.fin (-1) := by
    rw [spec_ke2, disc_backward_eval, F64.sqrt_fin_of_nonneg (by norm_num),
      term1_backward_eval, F64.sub_fin]
    rw [sqrt_quarter]
    norm_num
  refine ⟨?_, ke2_eq_ke1 nd2 nd2 nd2 1 180 0, ?_⟩
  · rw [ejectile_energy, if_neg hnot, ke2_eq_ke1, ke1_backward_eval,
      F64.mul_fin]
    norm_num
  · rw [hspec, F64.mul_fin]
    norm_num

/-- A fully resolved reaction (all four slots `nd2`) with a kinematically
forbidden fetched level (1 MeV, discriminant −1/4 at `Eb = 1`, `θ = 0`)
followed by an allowed one (0 MeV). -/
def reaction_resolved : Reaction :=
  { Reaction.default with
    target_data := some nd2
    projectile_data := some nd2
    ejectile_data := some nd2
    resid_data := some nd2
    excitation_levels := [1, 0] }

/-- A reaction with an unresolved target slot (mass lookup failed). -/
def reaction_unresolved : Reaction :=
  { Reaction.default with excitation_levels := [0] }

theorem rho_for_level_eq (t p e r : NuclearData) (Eb B θ Ex : ℝ) :
    rho_for_level t p e r Eb B θ Ex
      = F64.div
          (F64.div
            (F64.sqrt (F64.mul
              (ejectile_energy p e r Eb θ
                (t.mass + p.mass - e.mass - r.mass - Ex))
              (F64.add
                (ejectile_energy p e r Eb θ
                  (t.mass + p.mass - e.mass - r.mass - Ex))
                (F64.fin (2 * e.mass)))))
            (F64.fin QBRHO2P))
          (F64.fin (B * (e.z : ℝ))) := rfl

theorem term1_forward_eval : term1 nd2 nd2 nd2 1 0 = F64.fin (1 / 2) := by
  rw [term1_fin nd2 nd2 nd2 1 0 (by norm_num [nd2]) (by norm_num [nd2])]
  congr 1
  rw [term1R]
  norm_num [nd2, sqrt_four]

theorem term2_neg_eval : term2 nd2 nd2 nd2 1 (-1) = F64.fin (-(1 / 2)) := by
  rw [term2_fin nd2 nd2 nd2 1 (-1) (by norm_num [nd2])]
  congr 1
  rw [term2R]
  norm_num [nd2]

theorem disc_gs_eval : disc nd2 nd2 nd2 1 0 0 = F64.fin (1 / 4) := by
  rw [disc, term1_forward_eval, term2_zero_eval, F64.mul_fin, F64.add_fin]
  norm_num

theorem disc_forbidden_eval : disc nd2 nd2 nd2 1 0 (-1) = F64.fin (-(1 / 4)) := by
  rw [disc, term1_forward_eval, term2_neg_eval, F64.mul_fin, F64.add_fin]
  norm_num

theorem ke1_gs_eval : ke1 nd2 nd2 nd2 1 0 0 = F64.fin 1 := by
  rw [ke1, disc_gs_eval, F64.sqrt_fin_of_nonneg (by norm_num),
    term1_forward_eval, F64.add_fin]
  rw [sqrt_quarter]
  norm_num

theorem energy_gs_eval : ejectile_energy nd2 nd2 nd2 1 0 0 = F64.fin 1 := by
  have hpos : F64.gtZero (ke1 nd2 nd2 nd2 1 0 0) := by
    rw [ke1_gs_eval]
    show (0 : ℝ) < 1
    norm_num
  rw [ejectile_energy, if_pos hpos, ke1_gs_eval, F64.mul_fin]
  norm_num

theorem energy_forbidden_eval : ejectile_energy nd2 nd2 nd2 1 0 (-1) = F64.nan := by
  have hke1 : ke1 nd2 nd2 nd2 1 0 (-1) = F64.nan := by
    rw [ke1, disc_forbidden_eval, F64.sqrt_fin_of_neg (by norm_num), F64.add_nan]
  have hnot : ¬ F64.gtZero (ke1 nd2 nd2 nd2 1 0 (-1)) := by
    rw [hke1]
    exact F64.not_gtZero_nan
  rw [ejectile_energy, if_neg hnot, ke2_eq_ke1, hke1, F64.nan_mul]

theorem rho_forbidden_eval (B : ℝ) :
    rho_for_level nd2 nd2 nd2 nd2 1 B 0 1 = F64.nan := by
  rw [rho_for_level_eq,
    show nd2.mass + nd2.mass - nd2.mass - nd2.mass - (1 : ℝ) = -1 by
      norm_num [nd2],
    energy_forbidden_eval, F64.nan_mul, F64.sqrt_nan, F64.nan_div, F64.nan_div]

theorem rho_gs_eval :
    rho_for_level nd2 nd2 nd2 nd2 1 1 0 0 = F64.fin (Real.sqrt 5 / QBRHO2P) := by
  rw [rho_for_level_eq,
    show nd2.mass + nd2.mass - nd2.mass - nd2.mass - (0 : ℝ) = 0 by
      norm_num [nd2],
    energy_gs_eval, F64.add_fin, F64.mul_fin,
    F64.sqrt_fin_of_nonneg (by norm_num [nd2]),
    F64.div_fin_of_ne _ (ne_of_gt QBRHO2P_pos),
    F64.div_fin_of_ne _ (by norm_num [nd2])]
  congr 1
  norm_num [nd2]

theorem rho_gs_zero_field_eval :
    rho_for_level nd2 nd2 nd2 nd2 1 0 0 0 = F64.inf := by
  rw [rho_for_level_eq,
    show nd2.mass + nd2.mass - nd2.mass - nd2.mass - (0 : ℝ) = 0 by
      norm_num [nd2],
    energy_gs_eval, F64.add_fin, F64.mul_fin,
    F64.sqrt_fin_of_nonneg (by norm_num [nd2]),
    F64.div_fin_of_ne _ (ne_of_gt QBRHO2P_pos),
    show (0 : ℝ) * ((nd2.z : ℤ) : ℝ) = 0 by norm_num]
  exact F64.div_fin_zero_pos
    (div_pos (Real.sqrt_pos.mpr (by norm_num [nd2])) QBRHO2P_pos)

/-- C2: a kinematically forbidden level (negative discriminant) is NOT
skipped or flagged by the code: `sqrt` yields NaN, the NaN propagates, and
the pair `(Ex, NaN)` is pushed into `rho_values` like any other level
(the remaining levels do continue to be evaluated). -/
theorem forbidden_level_pushed_as_nan :
    ∃ r', excitation_level_to_rho reaction_resolved 1 1 0 = some r'
      ∧ r'.rho_values.map Prod.fst = [1, 0]
      ∧ r'.rho_values.map Prod.snd
          = [F64.nan, F64.fin (Real.sqrt 5 / QBRHO2P)] := by
  refine ⟨_, rfl, ?_, ?_⟩
  · simp [reaction_resolved, Reaction.default]
  · simp [reaction_resolved, Reaction.default, rho_forbidden_eval, rho_gs_eval]

/-- C4: a non-physical field is not refused: with `B = 0` the code divides
by zero and stores an infinite rho value (and the NaN of the forbidden
level) in `rho_values`. -/
theorem zero_field_stores_infinite_rho :
    ∃ r', excitation_level_to_rho reaction_resolved 1 0 0 = some r'
      ∧ r'.rho_values.map Prod.snd = [F64.nan, F64.inf] := by
  refine ⟨_, rfl, ?_⟩
  simp [reaction_resolved, Reaction.default, rho_forbidden_eval,
    rho_gs_zero_field_eval]

/-- C3: an unresolved nuclide does not lead to a reported, per-reaction
skip: `excitation_level_to_rho` `unwrap()`s the empty slot and panics,
and the panic aborts the whole batch — `calculate_rho_for_all_reactions`
produces no result at all (modelled `none`) even though the other reaction
of the set evaluates fine on its own. -/
theorem unresolved_reaction_panics_batch :
    calculate_rho_for_all_reactions 1 1 0 [reaction_unresolved, reaction_resolved]
        = none
    ∧ (∃ r', excitation_level_to_rho reaction_resolved 1 1 0 = some r') := by
  exact ⟨rfl, ⟨_, rfl⟩⟩

theorem excitation_level_to_rho_some (r : Reaction) (Eb B θ : ℝ)
    (t p e q : NuclearData)
    (ht : r.target_data = some t) (hp : r.projectile_data = some p)
    (he : r.ejectile_data = some e) (hq : r.resid_data = some q) :
    excitation_level_to_rho r Eb B θ
      = some { r with
          rho_values :=
            (r.excitation_levels ++ r.additional_excitation_levels).map
              (fun excitation =>
                (excitation, rho_for_level t p e q Eb B θ excitation)) } := by
  rw [excitation_level_to_rho, ht, hp, he, hq]

theorem excitation_level_to_rho_none (r : Reaction) (Eb B θ : ℝ)
    (h : r.target_data = none ∨ r.projectile_data = none
      ∨ r.ejectile_data = none ∨ r.resid_data = none) :
    excitation_level_to_rho r Eb B θ = none := by
  rw [excitation_level_to_rho]
  rcases ht : r.target_data with _ | t
  · rfl
  rcases hp : r.projectile_data with _ | p
  · rfl
  rcases he : r.ejectile_data with _ | e
  · rfl
  rcases hq : r.resid_data with _ | q
  · rfl
  rw [ht, hp, he, hq] at h
  rcases h with h | h | h | h <;> exact Option.noConfusion h

/-- C6: for a fully resolved reaction, evaluation replaces `rho_values`
wholesale with one pair per working level, and the excitation energies in
`rho_values` are exactly `excitation_levels ++ additional_excitation_levels`
in order: fetched levels first, extras appended, nothing left over. -/
theorem rho_values_order (r : Reaction) (Eb B θ : ℝ)
    (t p e q : NuclearData)
    (ht : r.target_data = some t) (hp : r.projectile_data = some p)
    (he : r.ejectile_data = some e) (hq : r.resid_data = some q) :
    ∃ r', excitation_level_to_rho r Eb B θ = some r'
      ∧ r'.rho_values.map Prod.fst
          = r.excitation_levels ++ r.additional_excitation_levels := by
  refine ⟨_, excitation_level_to_rho_some r Eb B θ t p e q ht hp he hq, ?_⟩
  have hfst : (Prod.fst ∘ fun excitation =>
      (excitation, rho_for_level t p e q Eb B θ excitation)) = @id ℝ := rfl
  simp [hfst]

/-- Witness for C6 at the concrete resolved reaction with fetched levels
`[1, 0]` and no extra levels. -/
theorem rho_values_order_witness :
    ∃ r', excitation_level_to_rho reaction_resolved 1 1 0 = some r'
      ∧ r'.rho_values.map Prod.fst
          = reaction_resolved.excitation_levels
            ++ reaction_resolved.additional_excitation_levels :=
  rho_values_order reaction_resolved 1 1 0 nd2 nd2 nd2 nd2 rfl rfl rfl rfl

theorem solve_solve (r r' : Reaction) (Eb B θ : ℝ)
    (h : excitation_level_to_rho r Eb B θ = some r') :
    excitation_level_to_rho r' Eb B θ = some r' := by
  rcases ht : r.target_data with _ | t
  · rw [excitation_level_to_rho_none r Eb B θ (Or.inl ht)] at h
    exact Option.noConfusion h
  rcases hp : r.projectile_data with _ | p
  · rw [excitation_level_to_rho_none r Eb B θ (Or.inr (Or.inl hp))] at h
    exact Option.noConfusion h
  rcases he : r.ejectile_data with _ | e
  · rw [excitation_level_to_rho_none r Eb B θ (Or.inr (Or.inr (Or.inl he)))] at h
    exact Option.noConfusion h
  rcases hq : r.resid_data with _ | q
  · rw [excitation_level_to_rho_none r Eb B θ (Or.inr (Or.inr (Or.inr hq)))] at h
    exact Option.noConfusion h
  rw [excitation_level_to_rho_some r Eb B θ t p e q ht hp he hq] at h
  injection h with h
  subst h
  exact excitation_level_to_rho_some _ Eb B θ t p e q ht hp he hq

/-- C7: batch evaluation is idempotent: running
`calculate_rho_for_all_reactions` on its own output (same beam energy,
field and angle) reproduces that output exactly — `rho_values` is a pure
function of the reaction state and the globals. -/
theorem evaluate_idempotent (rs : List Reaction) (Eb B θ : ℝ) :
    (calculate_rho_for_all_reactions Eb B θ rs).bind
        (calculate_rho_for_all_reactions Eb B θ)
      = calculate_rho_for_all_reactions Eb B θ rs := by
  induction rs with
  | nil => rfl
  | cons r rest ih =>
      rw [calculate_rho_for_all_reactions]
      rcases hr : excitation_level_to_rho r Eb B θ with _ | r'
      · rfl
      rcases hrest : calculate_rho_for_all_reactions Eb B θ rest with _ | rest'
      · rfl
      rw [hrest] at ih
      replace ih : calculate_rho_for_all_reactions Eb B θ rest' = some rest' := ih
      show calculate_rho_for_all_reactions Eb B θ (r' :: rest') = some (r' :: rest')
      rw [calculate_rho_for_all_reactions, solve_solve r r' Eb B θ hr, ih]
